import Mathlib

/-!
Verification development for the AI news crawler (`AI News Crawler.py`,
the second and authoritative program in the repository's crawler file).

Shallow embedding conventions:
* Python `datetime` instants are embedded as `Int` microseconds since the
  epoch (CPython datetimes have microsecond resolution and compare
  lexicographically on their fields, which agrees with this encoding).
* Python strings are Lean `String`s; slicing `s[:n]` is `String.take`,
  `len` is `String.length` (both count Unicode code points, as CPython does).
* The network, the Ali Baillan HTTP endpoint and the file system are
  external effects; they are embedded as explicit oracle parameters
  (functions / outcome values) passed to the functions that perform them.
* `hashlib.md5(x).hexdigest()` is embedded as an injective encoding of its
  input string: equal inputs give equal digests, and distinct inputs are
  assumed collision-free (the intent of a cryptographic hash).
-/

/-! ### Python whitespace and basic string helpers -/

/-- Whitespace class used by Python's `str.strip` and by `re.sub(r'\s+', ...)`
on `str` inputs: the ASCII whitespace characters plus (as a representative of
the further Unicode whitespace characters) NO-BREAK SPACE U+00A0. -/
def pyIsSpace (c : Char) : Bool :=
  c = ' ' || c = '\t' || c = '\n' || c = '\r' || c = Char.ofNat 0xb ||
  c = Char.ofNat 0xc || c = Char.ofNat 0xa0

/-- Character class of `re.sub(r'[ \t\r\n]+', ' ', text)` in
`TextNormalizer.normalize_whitespace` (note: this one is ASCII-only in the
source, unlike `\s`). -/
def isSpaceTRN (c : Char) : Bool :=
  c = ' ' || c = '\t' || c = '\r' || c = '\n'

/-- Replaces every maximal run of characters satisfying `p` with a single
space, as `re.sub(r'<class>+', ' ', text)` does.  `inRun` records whether the
previous character belonged to a run that has already emitted its space. -/
def collapseGo (p : Char → Bool) : Bool → List Char → List Char
  | _, [] => []
  | inRun, c :: rest =>
    if p c then
      if inRun then collapseGo p true rest else ' ' :: collapseGo p true rest
    else c :: collapseGo p false rest

/-- Removes trailing characters satisfying `pyIsSpace`, the right half of
Python's `str.strip()`. -/
def dropTrailWs : List Char → List Char
  | [] => []
  | c :: rest =>
    let r := dropTrailWs rest
    if r.isEmpty && pyIsSpace c then [] else c :: r

/-- Python's `str.strip()` on a character list. -/
def pyStrip (l : List Char) : List Char :=
  dropTrailWs (l.dropWhile pyIsSpace)

/-- Substring test, Python's `needle in haystack`: `startsWithL p l` is the
prefix test. -/
def startsWithL : List Char → List Char → Bool
  | [], _ => true
  | _ :: _, [] => false
  | p :: ps, c :: cs => p = c && startsWithL ps cs

/-- Substring occurrence test on character lists. -/
def containsSeq (pat : List Char) : List Char → Bool
  | [] => startsWithL pat []
  | c :: cs => startsWithL pat (c :: cs) || containsSeq pat cs

/-- Python's `pat in s` substring test on strings. -/
def strContains (s pat : String) : Bool :=
  containsSeq pat.toList s.toList

/-- Python's `str.lower()` restricted to ASCII case mapping (all keyword
table entries in the source are ASCII). -/
def pyLower (s : String) : String :=
  String.mk (s.toList.map Char.toLower)

/-! ### TextNormalizer

The source uses `html.unescape` plus BeautifulSoup's `html.parser` tree
builder.  The embedding models them directly on the character stream:
`htmlUnescape` decodes the common named entities, `tokenizeAux` is the
HTML tokenizer (tags, end tags, comments, declarations, and the CPython
`html.parser` rule that a `<` not opening a tag construct is emitted as
character data), `removeToksGo` is `decompose()` of the unwanted elements
on the token stream, and `pieces` collects the text nodes that
`get_text(separator)` joins.  The `Nat` fuel arguments bound the scan by
the input length (every step consumes at least one character), keeping the
functions structurally recursive and kernel-evaluable. -/

/-- Table of HTML entities decoded by the `html.unescape` model (the common
named entities; the source's behaviour on further entities is not exercised
by any claim). -/
def entityTable : List (List Char × Char) :=
  [("amp;".toList, '&'), ("lt;".toList, '<'), ("gt;".toList, '>'),
   ("quot;".toList, '"'), ("nbsp;".toList, Char.ofNat 0xa0)]

/-- Attempts to read one entity body (after a `&`). -/
def tryEntity (cs : List Char) : Option (Char × List Char) :=
  entityTable.foldr
    (fun pc acc => if startsWithL pc.1 cs then some (pc.2, cs.drop pc.1.length) else acc)
    none

/-- Entity-decoding scan; fuel is the input length. -/
def unescapeAux : Nat → List Char → List Char
  | 0, _ => []
  | _ + 1, [] => []
  | fuel + 1, '&' :: rest =>
    match tryEntity rest with
    | some cr => cr.1 :: unescapeAux fuel cr.2
    | none => '&' :: unescapeAux fuel rest
  | fuel + 1, c :: rest => c :: unescapeAux fuel rest

/-- Model of Python `html.unescape`. -/
def htmlUnescape (s : String) : String :=
  String.mk (unescapeAux s.toList.length s.toList)

/-- HTML token: a character of text data, a start tag, or an end tag.
Comments, declarations and processing instructions produce no token. -/
inductive Tok where
  | text (c : Char)
  | start (name : String)
  | close (name : String)
deriving DecidableEq

/-- Reads a tag name (letters and digits, lowercased, as CPython's
`html.parser` lowercases tag names). -/
def takeName (cs : List Char) : String :=
  String.mk ((cs.takeWhile (fun c => c.isAlphanum)).map Char.toLower)

/-- Skips to just past the next `>` (end of a tag). -/
def dropToGt (cs : List Char) : List Char :=
  (cs.dropWhile (fun c => c ≠ '>')).drop 1

/-- Skips to just past the closing `-->` of a comment. -/
def dropComment : List Char → List Char
  | [] => []
  | '-' :: '-' :: '>' :: rest => rest
  | _ :: rest => dropComment rest

/-- HTML tokenizer; a `<` followed by a letter opens a start tag, `</` an
end tag, `<!--` a comment, `<!`/`<?` a declaration, and any other `<` (and
every `>` outside a tag) is plain character data, as in CPython's
`html.parser`. -/
def tokenizeAux : Nat → List Char → List Tok
  | 0, _ => []
  | _ + 1, [] => []
  | fuel + 1, '<' :: rest =>
    match rest with
    | '!' :: '-' :: '-' :: r2 => tokenizeAux fuel (dropComment r2)
    | '/' :: r2 => Tok.close (takeName r2) :: tokenizeAux fuel (dropToGt r2)
    | '!' :: r2 => tokenizeAux fuel (dropToGt ('!' :: r2))
    | '?' :: r2 => tokenizeAux fuel (dropToGt ('?' :: r2))
    | c :: _ =>
      if c.isAlpha then Tok.start (takeName rest) :: tokenizeAux fuel (dropToGt rest)
      else Tok.text '<' :: tokenizeAux fuel rest
    | [] => []
  | fuel + 1, c :: rest => Tok.text c :: tokenizeAux fuel rest

/-- Elements removed before text extraction in `TextNormalizer.clean_html`:
`soup(["script", "style", "nav", "footer", "header", "aside", "iframe"])`
followed by `.decompose()`. -/
def removeSet : List String :=
  ["script", "style", "nav", "footer", "header", "aside", "iframe"]

/-- Drops the token stream of elements whose tag name is in `removeSet`
(`decompose()`): once inside such an element, tokens are skipped until the
matching end tag, tracking same-name nesting. -/
def removeToksGo : Option (String × Nat) → List Tok → List Tok
  | _, [] => []
  | some nd, t :: rest =>
    match t with
    | Tok.start m =>
      if m = nd.1 then removeToksGo (some (nd.1, nd.2 + 1)) rest
      else removeToksGo (some nd) rest
    | Tok.close m =>
      if m = nd.1 then
        if nd.2 = 0 then removeToksGo none rest
        else removeToksGo (some (nd.1, nd.2 - 1)) rest
      else removeToksGo (some nd) rest
    | Tok.text _ => removeToksGo (some nd) rest
  | none, t :: rest =>
    match t with
    | Tok.start m =>
      if m ∈ removeSet then removeToksGo (some (m, 0)) rest
      else t :: removeToksGo none rest
    | _ => t :: removeToksGo none rest

/-- Collects the maximal runs of text tokens: these are the text nodes that
`get_text(separator)` joins with the separator. -/
def pieces : List Tok → List (List Char)
  | [] => []
  | Tok.text c :: rest =>
    match rest, pieces rest with
    | Tok.text _ :: _, p :: ps => (c :: p) :: ps
    | Tok.text _ :: _, [] => [[c]]
    | _, ps => [c] :: ps
  | _ :: rest => pieces rest

/-- `get_text(separator)` on a cleaned token stream. -/
def getTextToks (sep : List Char) (toks : List Tok) : List Char :=
  List.flatten ((pieces toks).intersperse sep)

/-- `TextNormalizer.clean_html`: decode entities, parse, decompose the
non-content elements, `get_text(separator=' ')`, collapse whitespace runs
(`re.sub(r'\s+', ' ', text)`) and strip. -/
def clean_html (raw : String) : String :=
  if raw = "" then ""
  else
    let decoded := (htmlUnescape raw).toList
    let toks := removeToksGo none (tokenizeAux decoded.length decoded)
    let text := getTextToks [' '] toks
    String.mk (pyStrip (collapseGo pyIsSpace false text))

/-- `TextNormalizer.normalize_whitespace`:
`re.sub(r'[ \t\r\n]+', ' ', text).strip()`. -/
def normalize_whitespace (text : String) : String :=
  String.mk (pyStrip (collapseGo isSpaceTRN false text.toList))

/-- `head.rsplit(' ', 1)[0]`: everything before the last space, or the whole
string when it contains no space. -/
def rsplitLastSpace (l : List Char) : List Char :=
  match l.reverse.dropWhile (fun c => c ≠ ' ') with
  | [] => l
  | _ :: restRev => restRev.reverse

/-- `TextNormalizer.truncate_text`: return `text` unchanged when within the
budget, else cut at the budget, back off to the last space, and append the
suffix (default `"..."`). -/
def truncate_text (text : String) (maxLength : Nat) (suffix : String) : String :=
  if text.length ≤ maxLength then text
  else String.mk (rsplitLastSpace (text.toList.take maxLength)) ++ suffix

/-! ### Article / Entry data model -/

/-- Normalized article record produced by `RSSParser.parse_feed` and
enriched by the orchestrator (the Python dict's keys as fields;
`raw_content = ""` embeds a falsy/absent `raw_content`). -/
structure Article where
  title : String := ""
  link : String := ""
  published : Int := 0
  summary : String := ""
  source_name : String := ""
  source_type : String := ""
  raw_content : String := ""
  tags : List String := []
deriving DecidableEq

/-- Raw feed entry as seen by `RSSParser.parse_feed`.  `published` is the
result of `_extract_published_date` (already-parsed instant, or `none` when
no date field parses); `content` is the `entry['content'][0]['value']`
field when present; `summary` stands for
`entry.get('summary', entry.get('description', ''))`. -/
structure Entry where
  title : String := ""
  link : String := ""
  links : List String := []
  published : Option Int := none
  summary : String := ""
  content : Option String := none
  tags : List String := []
deriving DecidableEq

/-- `RSSParser._extract_link`: the `link` field, else the first of the
alternate links collection, else the empty string. -/
def extract_link (e : Entry) : String :=
  if e.link ≠ "" then e.link else e.links.headD ""

/-- `RSSParser._extract_content`: the embedded content value, else the
summary, else empty. -/
def extract_content (e : Entry) : String :=
  match e.content with
  | some c => c
  | none => if e.summary ≠ "" then e.summary else ""

/-- Microseconds in one day (`timedelta(days=1)`). -/
def day_us : Int := 86400000000

/-- `RSSParser.__init__`: `self.cutoff_date = datetime.now() - timedelta(days=days_back)`. -/
def cutoff_date (now days_back : Int) : Int :=
  now - days_back * day_us

/-- Builds the article dict for one entry, as the body of the
`parse_feed` loop does (title/summary cleaning, link resolution,
`published or datetime.now()` defaulting, summary fallback to cleaned
content truncated to 300 characters). -/
def entryToArticle (now : Int) (sn st : String) (e : Entry) : Article :=
  let title := clean_html e.title
  let raw := extract_content e
  let summary0 := clean_html e.summary
  let summary :=
    if summary0 = "" ∧ raw ≠ "" then (clean_html raw).take 300 else summary0
  { title := title, link := extract_link e, published := e.published.getD now,
    summary := summary, source_name := sn, source_type := st,
    raw_content := raw, tags := e.tags }

/-- `RSSParser.parse_feed`'s per-entry loop: skip entries dated strictly
before the cutoff, build the article, skip articles whose cleaned title is
empty.  The feed fetch itself (and its failure handling, which yields an
empty list) is outside this pure loop. -/
def parse_feed (now days_back : Int) (sn st : String) : List Entry → List Article
  | [] => []
  | e :: rest =>
    let tail := parse_feed now days_back sn st rest
    let tooOld :=
      match e.published with
      | some d => decide (d < cutoff_date now days_back)
      | none => false
    if tooOld then tail
    else
      let a := entryToArticle now sn st e
      if a.title = "" then tail else a :: tail

/-! ### DuplicateChecker -/

/-- Value stored under a cache key by `DuplicateChecker.mark_as_processed`. -/
structure CacheEntry where
  title : String
  link : String
  processed_at : Int
  source : String
deriving DecidableEq

/-- In-memory duplicate cache: the JSON object as an association list from
key to record (`self.cache`). -/
abbrev Cache := List (String × CacheEntry)

/-- Model of `re.sub(r'[?#].*$', '', link)`.  Since `.` does not match a
newline and `$` matches at the end of the string or just before a trailing
newline, a `?`/`#` only starts a match when the remainder of the string
contains no newline, or contains exactly one newline as its final
character (which then survives). -/
def qfTail (l : List Char) : Option (List Char) :=
  if l.all (fun c => c ≠ '\n') then some []
  else if l.dropLast.all (fun c => c ≠ '\n') then some ['\n']
  else none

/-- Strips the query string and fragment from a link, the
`re.sub(r'[?#].*$', '', link)` of `DuplicateChecker.get_article_hash`. -/
def stripQF : List Char → List Char
  | [] => []
  | c :: rest =>
    if c = '?' ∨ c = '#' then
      match qfTail (c :: rest) with
      | some suffix => suffix
      | none => c :: stripQF rest
    else c :: stripQF rest

/-- `DuplicateChecker.get_article_hash`: the MD5 hex digest of
`f"{title}|{clean_link}"`, with MD5 embedded as the injective identity on
the identifier string (see the file header). -/
def get_article_hash (a : Article) : String :=
  a.title ++ "|" ++ String.mk (stripQF a.link.toList)

/-- `DuplicateChecker.is_duplicate`: membership of the article's hash in
the cache.  The Python method performs no write; the embedding is a pure
function of the cache, so consecutive calls agree by construction. -/
def is_duplicate (c : Cache) (a : Article) : Bool :=
  c.any (fun kv => kv.1 == get_article_hash a)

/-- Dict assignment `self.cache[article_hash] = record`. -/
def cacheUpdate (c : Cache) (k : String) (e : CacheEntry) : Cache :=
  (k, e) :: c.filter (fun kv => !(kv.1 == k))

/-- `DuplicateChecker.mark_as_processed`: insert the record under the
article's hash (the subsequent `save_cache()` write of the whole store to
disk is an external effect not observed by any claim). -/
def mark_as_processed (c : Cache) (now : Int) (a : Article) : Cache :=
  cacheUpdate c (get_article_hash a)
    { title := a.title, link := a.link, processed_at := now, source := a.source_name }

/-- `DuplicateChecker.load_cache`: the persisted file is `none` when
absent; `parse` is the `json.load` of the external json library, returning
`none` when the payload raises (cannot be parsed).  A missing file or a
parse failure both fall through to the empty dict; no exception escapes
(the except-clause swallows every `Exception`). -/
def load_cache (parse : String → Option Cache) (file : Option String) : Cache :=
  match file with
  | none => []
  | some s => (parse s).getD []

/-- `DuplicateChecker.__init__`: the in-memory store after construction is
exactly the result of `load_cache`. -/
def mkDuplicateChecker (parse : String → Option Cache) (file : Option String) : Cache :=
  load_cache parse file

/-! ### ContentDownloader._extract_main_content

BeautifulSoup's parsed page is embedded abstractly: an element is the list
of its text-node strings (so `get_text()` is their concatenation and
`get_text(separator='\n')` their newline join, which is exactly how the two
differ in the source), and the page records, per CSS selector, the elements
`soup.select(selector)` returns after the decompose pass, together with the
results of the two per-origin `soup.find` overrides and of
`soup.find('body')`. -/

/-- An element: the list of its text nodes. -/
abbrev Elem := List String

/-- `e.get_text()` (empty separator). -/
def elemTextLen (e : Elem) : Nat :=
  (String.join e).length

/-- `e.get_text(separator=sep)`. -/
def elemText (e : Elem) (sep : String) : String :=
  String.intercalate sep e

/-- Abstract parsed page after removal of script/style/nav/footer/header/
aside/iframe/noscript elements. -/
structure Soup where
  selMatches : List (String × List Elem) := []
  arxivMain : Option Elem := none
  openaiMain : Option Elem := none
  body : Option Elem := none
deriving DecidableEq

/-- `soup.select(selector)`. -/
def soupSelect (s : Soup) (sel : String) : List Elem :=
  ((s.selMatches.find? (fun p => p.1 == sel)).map (fun p => p.2)).getD []

/-- The generic ranked selector list of `_extract_main_content`. -/
def selectors : List String :=
  ["article", "main", "[role=\"main\"]", ".post-content", ".entry-content",
   ".article-content", ".content", "#content", ".post-body", ".markdown-body"]

/-- Python's `max(elements, key=lambda e: len(e.get_text()))`: the first
element of maximal key. -/
def pyMaxBy (key : Elem → Nat) : List Elem → Elem
  | [] => []
  | e :: rest => rest.foldl (fun best x => if key x > key best then x else best) e

/-- The per-origin override block: `soup.find('div', class_='ltx_page_main')`
for arxiv.org URLs, `soup.find('div', class_='f-body-1')` for openai.com
URLs (an `elif`, so an arxiv.org URL never consults the openai branch). -/
def overrideMain (soup : Soup) (url : String) : Option Elem :=
  if strContains url "arxiv.org" then soup.arxivMain
  else if strContains url "openai.com" then soup.openaiMain
  else none

/-- The generic selector loop: the first selector with any match wins, and
among its matches the one with the longest `get_text()` is chosen. -/
def selectFirst (soup : Soup) : List String → Option (List Elem)
  | [] => none
  | sel :: rest =>
    let es := soupSelect soup sel
    if es.isEmpty then selectFirst soup rest else some es

/-- Post-processing of the chosen container:
`get_text(separator='\n')`, `normalize_whitespace`, `truncate_text(·, 8000)`. -/
def postProcess (e : Elem) : String :=
  truncate_text (normalize_whitespace (elemText e "\n")) 8000 "..."

/-- `ContentDownloader._extract_main_content`: per-origin override, else
generic selector loop, else `soup.find('body')`; `""` when nothing at all
matched. -/
def extract_main_content (soup : Soup) (url : String) : String :=
  let ov := overrideMain soup url
  let main :=
    match ov with
    | some e => some e
    | none =>
      match selectFirst soup selectors with
      | some es => some (pyMaxBy elemTextLen es)
      | none => soup.body
  match main with
  | some e => postProcess e
  | none => ""

/-! ### ContentDownloader.download_content -/

/-- Outcome of one `session.get` attempt: a parsed page, or one of the
exception classes the source handles (`Timeout`, other `RequestException`,
`SSLError`, any other exception). -/
inductive Fetch where
  | success (page : Soup)
  | timeout
  | reqError
  | sslError
  | otherError
deriving DecidableEq

/-- Transient outcomes: the two classes that the source retries with
backoff. -/
def isTransient : Fetch → Bool
  | Fetch.timeout => true
  | Fetch.reqError => true
  | _ => false

/-- The `for attempt in range(self.retries)` loop of `download_content`,
over the list of remaining attempt indices.  `net i` is the outcome of
attempt `i`.  The second component is the sequence of `time.sleep`
durations (seconds) performed, in order: `2 ** attempt`, but only when
further attempts remain.  An SSL error or an unexpected exception leaves
the loop immediately. -/
def downloadLoop (net : Nat → Fetch) (url : String) : List Nat → String × List Nat
  | [] => ("", [])
  | attempt :: rest =>
    match net attempt with
    | Fetch.success page => (extract_main_content page url, [])
    | Fetch.sslError => ("", [])
    | Fetch.otherError => ("", [])
    | Fetch.timeout =>
      if rest.isEmpty then ("", [])
      else
        let r := downloadLoop net url rest
        (r.1, 2 ^ attempt :: r.2)
    | Fetch.reqError =>
      if rest.isEmpty then ("", [])
      else
        let r := downloadLoop net url rest
        (r.1, 2 ^ attempt :: r.2)

/-- `ContentDownloader.download_content`: run the attempt loop; falling out
of the loop returns the empty string.  (Encoding auto-detection on success
only adjusts how the body bytes are decoded and is absorbed into the
`Fetch.success` page.) -/
def download_content (net : Nat → Fetch) (retries : Nat) (url : String) :
    String × List Nat :=
  downloadLoop net url (List.range retries)

/-! ### AliBaillanAPIClient.generate_summary -/

/-- Parsed JSON body of a 2xx response from the text-generation endpoint:
the `code`/`message` status fields and `output.text` when present. -/
structure ApiResp where
  code : Option String := none
  message : Option String := none
  outputText : Option String := none
deriving DecidableEq

/-- Outcome of the `session.post` call: a response body, or one of the
exception classes handled by `generate_summary`. -/
inductive ApiOutcome where
  | resp (r : ApiResp)
  | timeout
  | reqError
  | exn (msg : String)
deriving DecidableEq

/-- `re.sub(r'^#+\s*', '', summary)`: strip one leading run of `#` and the
whitespace following it. -/
def stripLeadingHashes (s : String) : String :=
  let l := s.toList
  if l.head? = some '#' then
    String.mk ((l.dropWhile (fun c => c = '#')).dropWhile pyIsSpace)
  else s

/-- Dispatch on a response body: API-reported error code, then
`output.text`, then the malformed-response message. -/
def apiRespBranch (r : ApiResp) : String :=
  let codeErr : Bool :=
    match r.code with
    | some c => !(c == "") && !(c == "Success")
    | none => false
  if codeErr then "摘要生成失败：API错误 - " ++ (r.message.getD "未知错误")
  else
    match r.outputText with
    | some t => stripLeadingHashes (String.mk (pyStrip t.toList))
    | none => "摘要生成失败：响应格式异常"

/-- `AliBaillanAPIClient.generate_summary`: short-input guard, then the
HTTP call (the prompt/payload construction, including
`truncate_text(content, 4000)`, only feeds the oracle and is elided), then
per-outcome messages.  Every failure is reported as a returned string
containing `失败`; nothing is raised. -/
def generate_summary (api : ApiOutcome) (content : String) (_title : String) : String :=
  if content = "" ∨ (pyStrip content.toList).length < 50 then
    "内容过短，无法生成有效摘要。"
  else
    match api with
    | ApiOutcome.resp r => apiRespBranch r
    | ApiOutcome.timeout => "摘要生成失败：请求超时"
    | ApiOutcome.reqError => "摘要生成失败：网络错误"
    | ApiOutcome.exn m => "摘要生成失败：" ++ m

/-! ### AINewsCrawler.process_article -/

/-- Run statistics dict of `AINewsCrawler.__init__`. -/
structure Stats where
  total_fetched : Nat := 0
  downloaded : Nat := 0
  summarized : Nat := 0
  saved : Nat := 0
  skipped_duplicate : Nat := 0
  skipped_error : Nat := 0
deriving DecidableEq

/-- Mutable crawler state touched by `process_article`: the duplicate
cache, the statistics, and the cooperative `self._running` flag. -/
structure CState where
  cache : Cache := []
  stats : Stats := {}
  running : Bool := true
deriving DecidableEq

/-- Outcome of the try-block around markdown generation and
`FileManager.save_markdown_file`: a saved path, the `None` that
`save_markdown_file` returns on `IOError`, or an exception escaping the
block (caught by `process_article`'s `except`). -/
inductive PersistOutcome where
  | ok (path : String)
  | failNone
  | exn (msg : String)
deriving DecidableEq

/-- External collaborators of one `process_article` invocation: the content
downloader's network, the Ali Baillan HTTP response, the render/persist
outcome, and the current wall-clock instant. -/
structure Env where
  download : String → String
  api : ApiOutcome
  persist : PersistOutcome
  now : Int

/-- Observable collaborator invocations of one `process_article` run, in
order.  `renderCall` records the summary string handed to
`generate_markdown_content`; `markProcessed` records the duplicate-store
insert. -/
inductive Event where
  | downloadCall (url : String)
  | summarizeCall (content : String) (title : String)
  | renderCall (aiSummary : String)
  | persistCall
  | markProcessed
deriving DecidableEq

/-- Result of one `process_article` run: final state, the returned bool,
and the collaborator-call trace. -/
structure PResult where
  state : CState
  ok : Bool
  events : List Event
deriving DecidableEq

/-- Content resolution of `process_article` step 2: download when
`raw_content` is falsy or shorter than 200 characters, else clean the
embedded content. -/
def resolveContent (env : Env) (a : Article) : String :=
  if a.raw_content = "" ∨ a.raw_content.length < 200 then env.download a.link
  else clean_html a.raw_content

/-- Keyword-to-tag table of `AINewsCrawler._generate_tags`. -/
def keywords_map : List (String × String) :=
  [("machine learning", "机器学习"), ("deep learning", "深度学习"),
   ("llm", "大模型"), ("gpt", "GPT"), ("transformer", "Transformer"),
   ("nlp", "自然语言处理"), ("computer vision", "计算机视觉"),
   ("reinforcement learning", "强化学习"), ("robot", "机器人"),
   ("generative", "生成式AI"), ("openai", "OpenAI"), ("google", "Google"),
   ("deepmind", "DeepMind"), ("arxiv", "ArXiv"), ("chatgpt", "ChatGPT"),
   ("diffusion", "扩散模型"), ("multimodal", "多模态"), ("agent", "智能体")]

/-- `AINewsCrawler._generate_tags`: ensure the base `AI` tag, scan the
lowercased title+summary+AI-summary for keywords, cap at 8 tags. -/
def generate_tags (a : Article) (aiSummary : String) : List String :=
  let tags0 := if a.tags.contains "AI" then a.tags else a.tags ++ ["AI"]
  let content := pyLower (a.title ++ " " ++ a.summary ++ " " ++ aiSummary)
  let tags1 := keywords_map.foldl
    (fun ts kt =>
      if strContains content kt.1 && !(ts.contains kt.2) then ts ++ [kt.2] else ts)
    tags0
  tags1.take 8

/-- `AINewsCrawler.process_article`: running check; duplicate check
(`skipped_duplicate`); content resolution (`skipped_error` and no
summarization on empty content); summary generation with the
`not ai_summary or "失败" in ai_summary` fallback to the feed summary
truncated to 200 characters; tag generation; then markdown rendering and
saving, with `mark_as_processed` and `saved` only on a non-None saved
path, a bare `False` when `save_markdown_file` returned `None`, and
`skipped_error` when the try-block raised.  (The `rate_limiter.wait()`
call has no observable effect beyond timing and is elided.) -/
def process_article (env : Env) (st : CState) (a : Article) : PResult :=
  if st.running = false then ⟨st, false, []⟩
  else if is_duplicate st.cache a then
    ⟨{ st with stats := { st.stats with skipped_duplicate := st.stats.skipped_duplicate + 1 } },
      false, []⟩
  else
    let content := resolveContent env a
    let ev1 : List Event :=
      if a.raw_content = "" ∨ a.raw_content.length < 200 then [Event.downloadCall a.link]
      else []
    if content = "" then
      ⟨{ st with stats := { st.stats with skipped_error := st.stats.skipped_error + 1 } },
        false, ev1⟩
    else
      let st1 := { st with stats := { st.stats with downloaded := st.stats.downloaded + 1 } }
      let ai0 := generate_summary env.api content a.title
      let ai := if ai0 = "" ∨ strContains ai0 "失败" = true then a.summary.take 200 else ai0
      let st2 := { st1 with stats := { st1.stats with summarized := st1.stats.summarized + 1 } }
      let _tags := generate_tags a ai
      let ev2 := ev1 ++ [Event.summarizeCall content a.title, Event.renderCall ai]
      match env.persist with
      | PersistOutcome.ok _path =>
        let cache2 := mark_as_processed st2.cache env.now a
        ⟨{ st2 with
             cache := cache2
             stats := { st2.stats with saved := st2.stats.saved + 1 } },
          true, ev2 ++ [Event.persistCall, Event.markProcessed]⟩
      | PersistOutcome.failNone => ⟨st2, false, ev2 ++ [Event.persistCall]⟩
      | PersistOutcome.exn _ =>
        ⟨{ st2 with stats := { st2.stats with skipped_error := st2.stats.skipped_error + 1 } },
          false, ev2 ++ [Event.persistCall]⟩

/-! ### Helper lemmas on whitespace collapsing -/

/-- No two adjacent characters of the list both satisfy `pyIsSpace`. -/
def noAdjWs : List Char → Bool
  | [] => true
  | [_] => true
  | a :: b :: rest => !(pyIsSpace a && pyIsSpace b) && noAdjWs (b :: rest)

lemma noAdjWs_cons (a : Char) (l : List Char) :
    noAdjWs (a :: l) =
      (l.head?.all (fun d => !(pyIsSpace a && pyIsSpace d)) && noAdjWs l) := by
  cases l <;> simp [noAdjWs]

lemma noAdjWs_tail {a : Char} {l : List Char} (h : noAdjWs (a :: l) = true) :
    noAdjWs l = true := by
  rw [noAdjWs_cons, Bool.and_eq_true] at h
  exact h.2

lemma collapseGo_true_head (l : List Char) :
    (collapseGo pyIsSpace true l).head?.all (fun c => !pyIsSpace c) = true := by
  induction l with
  | nil => simp [collapseGo]
  | cons c rest ih =>
    by_cases h : pyIsSpace c
    · simpa [collapseGo, h] using ih
    · simp [collapseGo, h]

lemma collapseGo_noAdjWs (l : List Char) :
    ∀ b, noAdjWs (collapseGo pyIsSpace b l) = true := by
  induction l with
  | nil => intro b; simp [collapseGo, noAdjWs]
  | cons c rest ih =>
    intro b
    by_cases h : pyIsSpace c
    · cases b with
      | true => simpa [collapseGo, h] using ih true
      | false =>
        have h1 := collapseGo_true_head rest
        have hsp : pyIsSpace ' ' = true := by decide
        simp only [collapseGo, h, if_true, if_false, Bool.false_eq_true, ite_true, ite_false]
        rw [noAdjWs_cons, Bool.and_eq_true]
        refine ⟨?_, ih true⟩
        rcases he : (collapseGo pyIsSpace true rest).head? with _ | d
        · simp
        · have := h1
          rw [he] at this
          simp only [Option.all_some] at this ⊢
          simp [hsp, this]
    · simp only [collapseGo, h, Bool.false_eq_true, ite_false]
      rw [noAdjWs_cons, Bool.and_eq_true]
      refine ⟨?_, ih false⟩
      have hc : pyIsSpace c = false := by
        cases hx : pyIsSpace c
        · rfl
        · exact absurd hx h
      rcases (collapseGo pyIsSpace false rest).head? with _ | d
      · simp
      · simp [hc]

lemma noAdjWs_dropWhile (p : Char → Bool) :
    ∀ l : List Char, noAdjWs l = true → noAdjWs (l.dropWhile p) = true := by
  intro l
  induction l with
  | nil => simp
  | cons c rest ih =>
    intro h
    by_cases hc : p c
    · simpa [List.dropWhile, hc] using ih (noAdjWs_tail h)
    · simpa [List.dropWhile, hc] using h

lemma dropTrailWs_head (l : List Char) :
    dropTrailWs l = [] ∨ (dropTrailWs l).head? = l.head? := by
  cases l with
  | nil => exact Or.inl rfl
  | cons c rest =>
    by_cases h : (dropTrailWs rest).isEmpty && pyIsSpace c
    · left; simp [dropTrailWs, h]
    · right; simp [dropTrailWs, h]

lemma noAdjWs_dropTrailWs : ∀ l : List Char, noAdjWs l = true → noAdjWs (dropTrailWs l) = true := by
  intro l
  induction l with
  | nil => intro _; rfl
  | cons c rest ih =>
    intro h
    have hr := ih (noAdjWs_tail h)
    by_cases hcond : (dropTrailWs rest).isEmpty && pyIsSpace c
    · have heq : dropTrailWs (c :: rest) = [] := by simp [dropTrailWs, hcond]
      rw [heq]
      rfl
    · have heq : dropTrailWs (c :: rest) = c :: dropTrailWs rest := by
        simp [dropTrailWs, hcond]
      rw [heq, noAdjWs_cons, Bool.and_eq_true]
      refine ⟨?_, hr⟩
      rcases dropTrailWs_head rest with he | he
      · simp [he]
      · rw [he]
        rw [noAdjWs_cons, Bool.and_eq_true] at h
        exact h.1

lemma getLast?_cons_ne {α : Type} (c : α) {r : List α} (h : r ≠ []) :
    (c :: r).getLast? = r.getLast? := by
  cases r with
  | nil => exact absurd rfl h
  | cons d rest => exact List.getLast?_cons_cons

lemma dropTrailWs_getLast (l : List Char) :
    (dropTrailWs l).getLast?.all (fun c => !pyIsSpace c) = true := by
  induction l with
  | nil => simp [dropTrailWs]
  | cons c rest ih =>
    by_cases hcond : (dropTrailWs rest).isEmpty && pyIsSpace c
    · simp [dropTrailWs, hcond]
    · have heq : dropTrailWs (c :: rest) = c :: dropTrailWs rest := by
        simp [dropTrailWs, hcond]
      rw [heq]
      cases hr : dropTrailWs rest with
      | nil =>
        have hc : pyIsSpace c = false := by
          cases hx : pyIsSpace c
          · rfl
          · exact absurd (by simp [hr, hx]) hcond
        simp [hc]
      | cons d ds =>
        rw [getLast?_cons_ne c (by simp)]
        rw [hr] at ih
        exact ih

lemma dropWhile_head_not (p : Char → Bool) :
    ∀ l : List Char, (l.dropWhile p).head?.all (fun c => !p c) = true := by
  intro l
  induction l with
  | nil => simp
  | cons c rest ih =>
    by_cases hc : p c
    · simpa [List.dropWhile, hc] using ih
    · have : p c = false := by
        cases hx : p c
        · rfl
        · exact absurd hx hc
      simp [List.dropWhile, this]

lemma pyStrip_noAdjWs {l : List Char} (h : noAdjWs l = true) :
    noAdjWs (pyStrip l) = true :=
  noAdjWs_dropTrailWs _ (noAdjWs_dropWhile _ _ h)

lemma pyStrip_head (l : List Char) :
    (pyStrip l).head?.all (fun c => !pyIsSpace c) = true := by
  unfold pyStrip
  rcases dropTrailWs_head (l.dropWhile pyIsSpace) with he | he
  · simp [he]
  · rw [he]
    exact dropWhile_head_not pyIsSpace l

lemma pyStrip_last (l : List Char) :
    (pyStrip l).getLast?.all (fun c => !pyIsSpace c) = true :=
  dropTrailWs_getLast _

/-! ### Claim C8 -/

/-- C8, counterexample.  The claim says the output of
`TextNormalizer.clean_html` contains no tag delimiters; but a `>` (or a `<`
not opening a tag construct) is plain character data for the HTML parser
and survives to the output: `clean_html "a > b" = "a > b"`. -/
theorem c8_stripmarkup_counterexample :
    clean_html "a > b" = "a > b" ∧ (clean_html "a > b").toList.contains '>' = true := by
  decide

/-- C8, amended: for every HTML input, the output of
`TextNormalizer.clean_html` contains no sequence of two or more consecutive
whitespace characters and is trimmed at both ends (no leading or trailing
whitespace); entities are decoded and script/style/nav/footer/header/aside/
iframe elements are removed before text extraction (witnessed by the
concrete conjunct); but a literal `<` or `>` occurring as character data
rather than as markup may survive to the output. -/
theorem c8_stripmarkup_amended :
    (∀ raw : String,
        noAdjWs (clean_html raw).toList = true
        ∧ (clean_html raw).toList.head?.all (fun c => !pyIsSpace c) = true
        ∧ (clean_html raw).toList.getLast?.all (fun c => !pyIsSpace c) = true)
    ∧ clean_html "<p>Hello &amp; <script>var x=1;</script>world</p>" = "Hello & world" := by
  constructor
  · intro raw
    by_cases h : raw = ""
    · subst h
      refine ⟨rfl, rfl, rfl⟩
    · have heq : (clean_html raw).toList =
          pyStrip (collapseGo pyIsSpace false
            (getTextToks [' ']
              (removeToksGo none
                (tokenizeAux (htmlUnescape raw).toList.length (htmlUnescape raw).toList)))) := by
        simp [clean_html, h]
      refine ⟨?_, ?_, ?_⟩
      · rw [heq]
        exact pyStrip_noAdjWs (collapseGo_noAdjWs _ false)
      · rw [heq]
        exact pyStrip_head _
      · rw [heq]
        exact pyStrip_last _
  · decide

/-! ### Claim C1 -/

/-- Article whose title contains the `|` separator character. -/
def a1c : Article := { title := "x|y", link := "z" }

/-- A different article (different title, different normalized link) whose
identifier string nevertheless coincides with `a1c`'s. -/
def b1c : Article := { title := "x", link := "y|z" }

/-- C1, counterexample.  The dedupe key is the hash of the single string
`title ++ "|" ++ clean_link`, so the boundary between title and link is
ambiguous when either contains `|`: after `mark_as_processed` on
`{title: "x|y", link: "z"}`, `is_duplicate` holds of
`{title: "x", link: "y|z"}` although neither its title nor its normalized
link matches — refuting the claimed `only if` direction. -/
theorem c1_dedupe_counterexample :
    is_duplicate (mark_as_processed [] 0 a1c) b1c = true
    ∧ (b1c.title == a1c.title) = false
    ∧ (stripQF b1c.link.toList == stripQF a1c.link.toList) = false := by
  decide

/-- C1, amended: after `mark_as_processed` on `a` (from an empty store),
`is_duplicate` holds of `b` exactly when the identifier strings
`title ++ "|" ++ normalized-link` agree; equality of title together with
equality of query-and-fragment-stripped link is sufficient (so in
particular a link differing only in its query string is recognized), but
it is necessary only when neither title nor stripped link contains `|`.
For an unprocessed article `is_duplicate` is `false`, and the embedding of
`is_duplicate` is a pure function of the store, so consecutive calls agree
and the store is not mutated. -/
theorem c1_dedupe_key_amended (a b : Article) (now : Int) :
    is_duplicate (mark_as_processed [] now a) b = (get_article_hash b == get_article_hash a)
    ∧ (b.title = a.title ∧ stripQF b.link.toList = stripQF a.link.toList →
        is_duplicate (mark_as_processed [] now a) b = true)
    ∧ is_duplicate [] b = false := by
  have key : is_duplicate (mark_as_processed [] now a) b
      = (get_article_hash b == get_article_hash a) := by
    by_cases hab : get_article_hash a = get_article_hash b
    · simp [is_duplicate, mark_as_processed, cacheUpdate, hab]
    · have hba : ¬get_article_hash b = get_article_hash a := fun hx => hab hx.symm
      simp [is_duplicate, mark_as_processed, cacheUpdate, hab, hba]
  refine ⟨key, ?_, rfl⟩
  rintro ⟨h1, h2⟩
  rw [key]
  have : get_article_hash b = get_article_hash a := by
    unfold get_article_hash
    rw [h1, h2]
  simp [this]

/-- Concrete article for the C1 witness. -/
def a1w : Article := { title := "Post", link := "https://e.com/x" }

/-- Same title, link differing only by a query string. -/
def b1w : Article := { title := "Post", link := "https://e.com/x?utm_source=rss" }

/-- Same link, different title. -/
def b2w : Article := { title := "Other", link := "https://e.com/x" }

/-- C1 witness: the query-string variant is recognized as a duplicate, the
different-title variant is not, and an unprocessed article is not a
duplicate. -/
theorem c1_dedupe_key_amended_witness :
    is_duplicate (mark_as_processed [] 0 a1w) b1w = true
    ∧ is_duplicate (mark_as_processed [] 0 a1w) b2w = false
    ∧ is_duplicate [] b1w = false :=
  ⟨(c1_dedupe_key_amended a1w b1w 0).2.1 (by decide),
   by rw [(c1_dedupe_key_amended a1w b2w 0).1]; decide,
   (c1_dedupe_key_amended a1w b1w 0).2.2⟩

/-! ### Claim C5 -/

/-- C5: the recency filter is applied per entry inside the
`RSSParser.parse_feed` loop against the cutoff fixed at construction
(`now - days_back` days): an entry dated exactly at the cutoff instant is
kept (the skip test is strict `<`), while an entry dated one microsecond
earlier is excluded. -/
theorem c5_recency_boundary (now days_back : Int) (sn st : String) (e : Entry) :
    (e.published = some (cutoff_date now days_back) → clean_html e.title ≠ "" →
        parse_feed now days_back sn st [e] = [entryToArticle now sn st e])
    ∧ (e.published = some (cutoff_date now days_back - 1) →
        parse_feed now days_back sn st [e] = []) := by
  constructor
  · intro h1 h2
    have ht : (entryToArticle now sn st e).title = clean_html e.title := rfl
    have hlt : ¬(cutoff_date now days_back < cutoff_date now days_back) := lt_irrefl _
    simp [parse_feed, h1, hlt, ht, h2]
  · intro h1
    have hlt : cutoff_date now days_back - 1 < cutoff_date now days_back := by omega
    simp [parse_feed, h1, hlt]

/-- Entry dated exactly at the cutoff of the C5 witness run. -/
def e5a : Entry := { title := "Breaking News", published := some (cutoff_date 1000000000000 7) }

/-- Entry dated one microsecond before that cutoff. -/
def e5b : Entry :=
  { title := "Breaking News", published := some (cutoff_date 1000000000000 7 - 1) }

/-- C5 witness at a concrete run instant and `days_back = 7`. -/
theorem c5_recency_boundary_witness :
    parse_feed 1000000000000 7 "src" "news" [e5a]
      = [entryToArticle 1000000000000 "src" "news" e5a]
    ∧ parse_feed 1000000000000 7 "src" "news" [e5b] = [] :=
  ⟨(c5_recency_boundary 1000000000000 7 "src" "news" e5a).1 rfl (by decide),
   (c5_recency_boundary 1000000000000 7 "src" "news" e5b).2 rfl⟩

/-! ### Claim C9 -/

/-- C9: a missing duplicate-cache file, or a present file whose payload the
JSON parser cannot parse, yields an empty in-memory store at
`DuplicateChecker` construction; the constructor is a total function (the
`except` clause swallows every exception), so no exception escapes. -/
theorem c9_corrupt_cache_empty (parse : String → Option Cache) (file : Option String)
    (h : file = none ∨ ∃ s, file = some s ∧ parse s = none) :
    mkDuplicateChecker parse file = [] := by
  rcases h with h | ⟨s, hs, hp⟩
  · simp [mkDuplicateChecker, load_cache, h]
  · simp [mkDuplicateChecker, load_cache, hs, hp]

/-- A `json.load` model that fails on every payload (the corrupt-payload
scenario). -/
def corruptParse : String → Option Cache := fun _ => none

/-- C9 witness: absent file and corrupt payload both construct the empty
store. -/
theorem c9_corrupt_cache_empty_witness :
    mkDuplicateChecker corruptParse none = []
    ∧ mkDuplicateChecker corruptParse (some "#### not json ####") = [] :=
  ⟨c9_corrupt_cache_empty corruptParse none (Or.inl rfl),
   c9_corrupt_cache_empty corruptParse (some "#### not json ####")
     (Or.inr ⟨"#### not json ####", rfl, rfl⟩)⟩

/-! ### Claim C4 -/

lemma foldl_pyMax_le (key : Elem → Nat) (l : List Elem) :
    ∀ b : Elem,
      key b ≤ key (l.foldl (fun best x => if key x > key best then x else best) b)
      ∧ ∀ x ∈ l, key x ≤ key (l.foldl (fun best x => if key x > key best then x else best) b) := by
  induction l with
  | nil => intro b; exact ⟨le_refl _, by simp⟩
  | cons a rest ih =>
    intro b
    have step : key b ≤ key (if key a > key b then a else b) := by
      by_cases h : key a > key b
      · simp [h]; omega
      · simp [h]
    have stepa : key a ≤ key (if key a > key b then a else b) := by
      by_cases h : key a > key b
      · simp [h]
      · simp [h]; omega
    constructor
    · calc key b ≤ key (if key a > key b then a else b) := step
        _ ≤ _ := (ih _).1
    · intro x hx
      rcases List.mem_cons.mp hx with hx | hx
      · subst hx
        calc key x ≤ key (if key x > key b then x else b) := stepa
          _ ≤ _ := (ih _).1
      · exact (ih _).2 x hx

lemma pyMaxBy_le (key : Elem → Nat) (l : List Elem) :
    ∀ x ∈ l, key x ≤ key (pyMaxBy key l) := by
  cases l with
  | nil => simp
  | cons e rest =>
    intro x hx
    rcases List.mem_cons.mp hx with hx | hx
    · subst hx
      exact (foldl_pyMax_le key rest x).1
    · exact (foldl_pyMax_le key rest e).2 x hx

/-- Soup for the C4 counterexample: `article` matches one short element,
`main` matches a much longer one. -/
def soup4 : Soup :=
  { selMatches :=
      [("article", [["short"]]),
       ("main", [["a considerably longer body of text for this test"]])] }

/-- C4, counterexample.  The selector loop breaks at the first selector
with any match; it does not compare candidates across selectors.  Here
`article` matches a 5-character container while `main` matches a
49-character one, yet the `article` text is returned — refuting "returns
the candidate with strictly greatest text length among all
generic-selector matches". -/
theorem c4_extract_counterexample :
    extract_main_content soup4 "https://example.com/post" = "short"
    ∧ (extract_main_content soup4 "https://example.com/post"
        == "a considerably longer body of text for this test") = false
    ∧ elemTextLen ["short"]
        < elemTextLen ["a considerably longer body of text for this test"] := by
  decide

/-- C4, amended: when no per-origin override applies,
`_extract_main_content` picks, among the matches of the FIRST selector in
the ranked list that matches at all, the one with greatest `get_text()`
length (the first such on ties) — later selectors are never consulted; the
arxiv.org override takes precedence over the generic list; and the
document body is used only when the override yields nothing and no generic
selector matches. -/
theorem c4_extract_amended (soup : Soup) (url : String) :
    (∀ es, overrideMain soup url = none → selectFirst soup selectors = some es →
        extract_main_content soup url = postProcess (pyMaxBy elemTextLen es)
        ∧ ∀ e ∈ es, elemTextLen e ≤ elemTextLen (pyMaxBy elemTextLen es))
    ∧ (∀ e, strContains url "arxiv.org" = true → soup.arxivMain = some e →
        extract_main_content soup url = postProcess e)
    ∧ (∀ b, overrideMain soup url = none → selectFirst soup selectors = none →
        soup.body = some b →
        extract_main_content soup url = postProcess b) := by
  refine ⟨?_, ?_, ?_⟩
  · intro es hov hsel
    refine ⟨?_, pyMaxBy_le elemTextLen es⟩
    simp [extract_main_content, hov, hsel]
  · intro e harx hfind
    have hov : overrideMain soup url = some e := by
      simp [overrideMain, harx, hfind]
    simp [extract_main_content, hov]
  · intro b hov hsel hbody
    simp [extract_main_content, hov, hsel, hbody]

/-- Soup for the C4 witness: no override container; `article` has two
matches of different lengths; an arxiv page soup exercises the override. -/
def soup4w : Soup :=
  { selMatches := [("article", [["tiny"], ["a much longer article text body"]])] }

/-- Soup with an arxiv override container. -/
def soup4arx : Soup :=
  { selMatches := [("article", [["generic container"]])],
    arxivMain := some ["the ltx page main container text"] }

/-- Soup with nothing but a body. -/
def soup4body : Soup := { body := some ["only the body text"] }

/-- C4 witness: longest-of-first-matching-selector, override precedence,
and body fallback, each at a concrete page. -/
theorem c4_extract_amended_witness :
    extract_main_content soup4w "https://example.com/a"
      = postProcess (pyMaxBy elemTextLen [["tiny"], ["a much longer article text body"]])
    ∧ extract_main_content soup4arx "https://arxiv.org/abs/1234"
      = postProcess ["the ltx page main container text"]
    ∧ extract_main_content soup4body "https://example.com/b"
      = postProcess ["only the body text"] :=
  ⟨((c4_extract_amended soup4w "https://example.com/a").1
      [["tiny"], ["a much longer article text body"]] (by decide) (by decide)).1,
   (c4_extract_amended soup4arx "https://arxiv.org/abs/1234").2.1
     ["the ltx page main container text"] (by decide) rfl,
   (c4_extract_amended soup4body "https://example.com/b").2.2
     ["only the body text"] (by decide) (by decide) rfl⟩

/-! ### Claims C6 and C7 -/

lemma downloadLoop_last_transient (net : Nat → Fetch) (url : String) (a : Nat)
    (ha : isTransient (net a) = true) :
    downloadLoop net url [a] = ("", []) := by
  cases hna : net a <;> simp [isTransient, hna] at ha <;> simp [downloadLoop, hna]

lemma downloadLoop_cons_transient (net : Nat → Fetch) (url : String) (a : Nat)
    (rest : List Nat) (ha : isTransient (net a) = true) (hre : rest ≠ []) :
    downloadLoop net url (a :: rest)
      = ((downloadLoop net url rest).1, 2 ^ a :: (downloadLoop net url rest).2) := by
  have hne : rest.isEmpty = false := by
    cases rest with
    | nil => exact absurd rfl hre
    | cons _ _ => rfl
  cases hna : net a <;> simp [isTransient, hna] at ha <;>
    simp only [downloadLoop, hna, hne, Bool.false_eq_true, if_false]

lemma dropLast_cons_ne {α : Type} (a : α) {l : List α} (h : l ≠ []) :
    (a :: l).dropLast = a :: l.dropLast := by
  cases l with
  | nil => exact absurd rfl h
  | cons _ _ => rfl

lemma downloadLoop_all_transient (net : Nat → Fetch) (url : String) :
    ∀ l : List Nat, (∀ a ∈ l, isTransient (net a) = true) →
      downloadLoop net url l = ("", l.dropLast.map (2 ^ ·)) := by
  intro l
  induction l with
  | nil => intro _; rfl
  | cons a rest ih =>
    intro h
    have ha : isTransient (net a) = true := h a (List.mem_cons_self a rest)
    have hrest : ∀ x ∈ rest, isTransient (net x) = true :=
      fun x hx => h x (List.mem_cons_of_mem a hx)
    by_cases hre : rest = []
    · subst hre
      rw [downloadLoop_last_transient net url a ha]
      rfl
    · rw [downloadLoop_cons_transient net url a rest ha hre, ih hrest,
        dropLast_cons_ne a hre]
      rfl

lemma range_dropLast (n : Nat) : (List.range n).dropLast = List.range (n - 1) := by
  cases n with
  | zero => rfl
  | succ m =>
    rw [List.range_succ, List.dropLast_concat]
    simp

/-- C6: on timeout or transient network error, `download_content` runs up
to `retries` attempts, sleeping `2 ^ attempt` seconds after each failed
attempt that is not the last (the second component is the sleep
sequence), and returns the empty string once all attempts are exhausted;
and with `retries = 3`, two timeouts followed by a success yield the
extracted content of the fetched page, after sleeps of `1` and `2`
seconds. -/
theorem c6_retry_backoff :
    (∀ (net : Nat → Fetch) (retries : Nat) (url : String),
        (∀ i, i < retries → isTransient (net i) = true) →
        download_content net retries url = ("", (List.range (retries - 1)).map (2 ^ ·)))
    ∧ (∀ (net : Nat → Fetch) (url : String) (page : Soup),
        net 0 = Fetch.timeout → net 1 = Fetch.timeout → net 2 = Fetch.success page →
        download_content net 3 url = (extract_main_content page url, [1, 2])) := by
  constructor
  · intro net retries url h
    have hall : ∀ a ∈ List.range retries, isTransient (net a) = true :=
      fun a ha => h a (List.mem_range.mp ha)
    rw [download_content, downloadLoop_all_transient net url (List.range retries) hall,
      range_dropLast]
  · intro net url page h0 h1 h2
    show downloadLoop net url (List.range 3) = _
    have h3 : List.range 3 = [0, 1, 2] := rfl
    rw [h3]
    simp [downloadLoop, h0, h1, h2]

/-- Network that times out on every attempt. -/
def netAllTimeout : Nat → Fetch := fun _ => Fetch.timeout

/-- Page returned by the succeed-on-third-attempt network. -/
def page6 : Soup := { body := some ["recovered page body text"] }

/-- Network that times out twice and then succeeds. -/
def netThird : Nat → Fetch :=
  fun i => if i < 2 then Fetch.timeout else Fetch.success page6

/-- C6 witness: exhaustion with `retries = 3` sleeps `1` then `2` seconds
and returns empty; success on the third attempt returns the extracted
content. -/
theorem c6_retry_backoff_witness :
    download_content netAllTimeout 3 "https://e.com/x" = ("", [1, 2])
    ∧ download_content netThird 3 "https://e.com/x"
      = (extract_main_content page6 "https://e.com/x", [1, 2]) :=
  ⟨by
    have := c6_retry_backoff.1 netAllTimeout 3 "https://e.com/x" (fun i _ => rfl)
    simpa using this,
   c6_retry_backoff.2 netThird "https://e.com/x" page6 rfl rfl rfl⟩

lemma downloadLoop_ssl (net : Nat → Fetch) (url : String) (k : Nat)
    (hssl : net k = Fetch.sslError) :
    ∀ l1 l2 : List Nat, (∀ a ∈ l1, isTransient (net a) = true) →
      downloadLoop net url (l1 ++ k :: l2) = ("", l1.map (2 ^ ·)) := by
  intro l1
  induction l1 with
  | nil => intro l2 _; simp [downloadLoop, hssl]
  | cons a rest ih =>
    intro l2 h
    have ha : isTransient (net a) = true := h a (List.mem_cons_self a rest)
    have hrest : ∀ x ∈ rest, isTransient (net x) = true :=
      fun x hx => h x (List.mem_cons_of_mem a hx)
    have hne : rest ++ k :: l2 ≠ [] := by simp
    rw [List.cons_append, downloadLoop_cons_transient net url a _ ha hne, ih l2 hrest]
    rfl

lemma range_split (n k : Nat) (h : k < n) :
    ∃ l2, List.range n = List.range k ++ k :: l2 := by
  induction n with
  | zero => omega
  | succ m ih =>
    by_cases hk : k < m
    · obtain ⟨l2, hl⟩ := ih hk
      refine ⟨l2 ++ [m], ?_⟩
      rw [List.range_succ, hl]
      simp
    · have : k = m := by omega
      subst this
      exact ⟨[], by rw [List.range_succ]⟩

/-- C7: whenever the `k`-th attempt (each earlier attempt having failed
transiently) raises an SSL/certificate error, `download_content` returns
the empty string at once: no further attempt and no further backoff sleep
occur — the sleep sequence is exactly the ones accumulated before the SSL
failure — regardless of how many of the `retries` attempts remain.  The
model performs exactly one fetch per attempt and has no
verification-disabled refetch path, matching the source, which returns
without ever setting `verify=False`. -/
theorem c7_ssl_no_retry (net : Nat → Fetch) (url : String) (retries k : Nat)
    (hk : k < retries) (hpre : ∀ i, i < k → isTransient (net i) = true)
    (hssl : net k = Fetch.sslError) :
    download_content net retries url = ("", (List.range k).map (2 ^ ·)) := by
  obtain ⟨l2, hl⟩ := range_split retries k hk
  rw [download_content, hl]
  exact downloadLoop_ssl net url k hssl (List.range k) l2
    (fun a ha => hpre a (List.mem_range.mp ha))

/-- Network for the C7 witness: a timeout, then an SSL failure; later
attempts would succeed, but must never be reached. -/
def netSsl : Nat → Fetch :=
  fun i => if i = 0 then Fetch.timeout
    else if i = 1 then Fetch.sslError
    else Fetch.success page6

/-- C7 witness: with `retries = 5`, the SSL failure on the second attempt
ends the download immediately (empty result, only the pre-SSL backoff
sleep), even though three attempts remain and would have succeeded. -/
theorem c7_ssl_no_retry_witness :
    download_content netSsl 5 "https://e.com/x" = ("", (List.range 1).map (2 ^ ·)) :=
  c7_ssl_no_retry netSsl "https://e.com/x" 5 1 (by omega)
    (fun i hi => by
      have h0 : i = 0 := by omega
      subst h0
      rfl)
    rfl

/-! ### Claim C2 -/

/-- C2: when the article's content resolves to the empty string after a
failed download, `process_article` increments `skipped_error`, returns
`False`, and never invokes the summarization collaborator
(no `summarizeCall` event is emitted). -/
theorem c2_skip_empty_content (env : Env) (st : CState) (a : Article)
    (h1 : st.running = true) (h2 : is_duplicate st.cache a = false)
    (h3 : a.raw_content = "" ∨ a.raw_content.length < 200)
    (h4 : env.download a.link = "") :
    (process_article env st a).state.stats.skipped_error = st.stats.skipped_error + 1
    ∧ (process_article env st a).ok = false
    ∧ ∀ c t, Event.summarizeCall c t ∉ (process_article env st a).events := by
  have hres : resolveContent env a = "" := by
    simp [resolveContent, h3, h4]
  refine ⟨?_, ?_, ?_⟩ <;>
    simp [process_article, h1, h2, h3, hres]

/-- Environment whose download always fails to produce content. -/
def env2w : Env :=
  { download := fun _ => "", api := ApiOutcome.timeout,
    persist := PersistOutcome.ok "p", now := 0 }

/-- Article with no embedded content (must be downloaded). -/
def a2w : Article := { title := "T", link := "https://e.com/x", summary := "S" }

/-- Fresh crawler state. -/
def st0 : CState := {}

/-- C2 witness at a concrete failed download. -/
theorem c2_skip_empty_content_witness :
    (process_article env2w st0 a2w).state.stats.skipped_error
      = st0.stats.skipped_error + 1
    ∧ (process_article env2w st0 a2w).ok = false
    ∧ ((process_article env2w st0 a2w).events.contains
        (Event.summarizeCall "" "T")) = false :=
  ⟨(c2_skip_empty_content env2w st0 a2w rfl rfl (Or.inl rfl) rfl).1,
   (c2_skip_empty_content env2w st0 a2w rfl rfl (Or.inl rfl) rfl).2.1,
   by
    have h := (c2_skip_empty_content env2w st0 a2w rfl rfl (Or.inl rfl) rfl).2.2 "" "T"
    simpa using h⟩

/-! ### Claim C3 -/

/-- Environment delivering content shorter than 50 characters. -/
def env3c : Env :=
  { download := fun _ => "too short", api := ApiOutcome.resp { outputText := some "unused" },
    persist := PersistOutcome.ok "p", now := 0 }

/-- Article with a distinctive feed-supplied summary. -/
def a3c : Article := { title := "T", link := "https://e.com/x", summary := "FEEDSUMMARY" }

set_option maxRecDepth 8192 in
/-- C3, counterexample.  For non-empty content shorter than 50 characters,
`generate_summary` returns the fixed notice `内容过短，无法生成有效摘要。`,
which does not contain the failure marker `失败`, so the orchestrator's
`not ai_summary or "失败" in ai_summary` fallback does NOT fire: the notice
itself — not the feed-supplied summary — is used as the article's summary,
refuting the claim for the too-short-input case. -/
theorem c3_summary_fallback_counterexample :
    ((process_article env3c st0 a3c).events.contains
        (Event.renderCall "内容过短，无法生成有效摘要。")) = true
    ∧ ((process_article env3c st0 a3c).events.contains
        (Event.renderCall (String.take "FEEDSUMMARY" 200))) = false
    ∧ (resolveContent env3c a3c == "") = false
    ∧ (pyStrip (resolveContent env3c a3c).toList).length < 50 := by
  decide

/-- C3, amended: when the summarization result is empty or contains the
failure marker `失败`, the orchestrator uses the feed-supplied summary
truncated to 200 characters; when the (non-empty) input content has
stripped length below 50, the summarizer's fixed too-short notice is used
as the summary instead of the feed summary; and in every case the failure
is not propagated as a hard error — the article still proceeds to
rendering and saving. -/
theorem c3_summary_fallback_amended (env : Env) (st : CState) (a : Article)
    (h1 : st.running = true) (h2 : is_duplicate st.cache a = false)
    (h3 : resolveContent env a ≠ "") :
    (strContains (generate_summary env.api (resolveContent env a) a.title) "失败" = true
        ∨ generate_summary env.api (resolveContent env a) a.title = "" →
      Event.renderCall (a.summary.take 200) ∈ (process_article env st a).events)
    ∧ ((pyStrip (resolveContent env a).toList).length < 50 →
      Event.renderCall "内容过短，无法生成有效摘要。" ∈ (process_article env st a).events)
    ∧ (∃ s, Event.renderCall s ∈ (process_article env st a).events)
    ∧ Event.persistCall ∈ (process_article env st a).events := by
  refine ⟨?_, ?_, ?_, ?_⟩
  · intro hg
    have hor : generate_summary env.api (resolveContent env a) a.title = ""
        ∨ strContains (generate_summary env.api (resolveContent env a) a.title) "失败" = true :=
      hg.symm
    cases hp : env.persist <;>
      simp [process_article, h1, h2, h3, hor, hp]
  · intro hlen
    have hg : generate_summary env.api (resolveContent env a) a.title
        = "内容过短，无法生成有效摘要。" := by
      unfold generate_summary
      rw [if_pos (Or.inr hlen)]
    have hno : ¬("内容过短，无法生成有效摘要。" = ""
        ∨ strContains "内容过短，无法生成有效摘要。" "失败" = true) := by
      decide
    have hfs : strContains "内容过短，无法生成有效摘要。" "失败" = false := by
      decide
    cases hp : env.persist <;>
      simp [process_article, h1, h2, h3, hg, hno, hfs, hp]
  · by_cases hcond : (generate_summary env.api (resolveContent env a) a.title = ""
        ∨ strContains (generate_summary env.api (resolveContent env a) a.title) "失败" = true)
    · refine ⟨a.summary.take 200, ?_⟩
      cases hp : env.persist <;>
        simp [process_article, h1, h2, h3, hcond, hp]
    · refine ⟨generate_summary env.api (resolveContent env a) a.title, ?_⟩
      cases hp : env.persist <;>
        simp [process_article, h1, h2, h3, hcond, hp]
  · cases hp : env.persist <;>
      simp [process_article, h1, h2, h3, hp]

/-- Environment whose summarization call times out (so the result contains
the failure marker). -/
def env3w : Env :=
  { download := fun _ => "a sufficiently long downloaded content body for this test run ok",
    api := ApiOutcome.timeout, persist := PersistOutcome.ok "p", now := 0 }

set_option maxRecDepth 8192 in
/-- C3 witness: on a summarization timeout the feed summary (truncated to
200 characters) is rendered, and the article still reaches the persist
step. -/
theorem c3_summary_fallback_amended_witness :
    Event.renderCall (String.take "FEEDSUMMARY" 200) ∈ (process_article env3w st0 a3c).events
    ∧ Event.persistCall ∈ (process_article env3w st0 a3c).events :=
  ⟨(c3_summary_fallback_amended env3w st0 a3c rfl rfl (by decide)).1 (Or.inl (by decide)),
   (c3_summary_fallback_amended env3w st0 a3c rfl rfl (by decide)).2.2.2⟩

/-! ### Claim C10 -/

lemma process_article_cache_unchanged (env : Env) (st : CState) (a : Article)
    (h : ∀ p, env.persist ≠ PersistOutcome.ok p) :
    (process_article env st a).state.cache = st.cache := by
  cases hr : st.running with
  | false => simp [process_article, hr]
  | true =>
    cases hd : is_duplicate st.cache a with
    | true => simp [process_article, hr, hd]
    | false =>
      by_cases hc : resolveContent env a = ""
      · simp [process_article, hr, hd, hc]
      · cases hp : env.persist with
        | ok p => exact absurd hp (h p)
        | failNone => simp [process_article, hr, hd, hc, hp]
        | exn m => simp [process_article, hr, hd, hc, hp]

/-- Environment that reaches the save step and has it fail by returning
`None` (the `IOError` path of `save_markdown_file`). -/
def env10c : Env :=
  { download := fun _ => "a sufficiently long downloaded content body for this test run ok",
    api := ApiOutcome.resp { outputText := some "A generated summary" },
    persist := PersistOutcome.failNone, now := 0 }

/-- Article for the C10 scenarios. -/
def a10c : Article := { title := "T", link := "https://e.com/x", summary := "S" }

set_option maxRecDepth 8192 in
/-- C10, counterexample.  When `save_markdown_file` returns `None` without
raising, `process_article` returns `False` and leaves the duplicate store
unchanged, but increments no counter at all: `skipped_error` stays at its
old value (here 0), refuting the claim's "the article is counted as
skipped-error" for the save-returns-None case. -/
theorem c10_persist_counterexample :
    Event.persistCall ∈ (process_article env10c st0 a10c).events
    ∧ (process_article env10c st0 a10c).state.stats.skipped_error = 0
    ∧ (process_article env10c st0 a10c).state.cache = st0.cache
    ∧ (process_article env10c st0 a10c).ok = false := by
  decide

/-- C10, amended: the duplicate store is mutated only when the persist
step returned a path (for any environment, state and article); when the
save returns `None` the store and all counters are unchanged and `False`
is returned; when the try-block raises, the store is unchanged, the
article is counted as skipped-error, and `False` is returned; and on a
successful save the store gains exactly the article's record and `True`
is returned.  Either failure leaves the article eligible for
re-processing on a later run. -/
theorem c10_mark_only_on_save_amended (env : Env) (st : CState) (a : Article)
    (h1 : st.running = true) (h2 : is_duplicate st.cache a = false)
    (h3 : resolveContent env a ≠ "") :
    (∀ (env' : Env) (st' : CState) (a' : Article),
        (process_article env' st' a').state.cache ≠ st'.cache →
        ∃ p, env'.persist = PersistOutcome.ok p)
    ∧ (env.persist = PersistOutcome.failNone →
        (process_article env st a).state.cache = st.cache
        ∧ (process_article env st a).state.stats = { st.stats with
            downloaded := st.stats.downloaded + 1,
            summarized := st.stats.summarized + 1 }
        ∧ (process_article env st a).ok = false)
    ∧ (∀ m, env.persist = PersistOutcome.exn m →
        (process_article env st a).state.cache = st.cache
        ∧ (process_article env st a).state.stats.skipped_error
            = st.stats.skipped_error + 1
        ∧ (process_article env st a).ok = false)
    ∧ (∀ p, env.persist = PersistOutcome.ok p →
        (process_article env st a).state.cache = mark_as_processed st.cache env.now a
        ∧ (process_article env st a).ok = true) := by
  refine ⟨?_, ?_, ?_, ?_⟩
  · intro env' st' a' hne
    cases hp : env'.persist with
    | ok p => exact ⟨p, rfl⟩
    | failNone =>
      exact absurd (process_article_cache_unchanged env' st' a'
        (fun q => by rw [hp]; intro hx; cases hx)) hne
    | exn m =>
      exact absurd (process_article_cache_unchanged env' st' a'
        (fun q => by rw [hp]; intro hx; cases hx)) hne
  · intro hp
    refine ⟨?_, ?_, ?_⟩ <;> simp [process_article, h1, h2, h3, hp]
  · intro m hp
    refine ⟨?_, ?_, ?_⟩ <;> simp [process_article, h1, h2, h3, hp]
  · intro p hp
    refine ⟨?_, ?_⟩ <;> simp [process_article, h1, h2, h3, hp]

/-- Environment for the successful-save witness. -/
def env10a : Env :=
  { download := fun _ => "a sufficiently long downloaded content body for this test run ok",
    api := ApiOutcome.resp { outputText := some "A generated summary" },
    persist := PersistOutcome.ok "2024-01-01-t.md", now := 0 }

/-- Environment for the exception-during-save witness. -/
def env10b : Env :=
  { download := fun _ => "a sufficiently long downloaded content body for this test run ok",
    api := ApiOutcome.resp { outputText := some "A generated summary" },
    persist := PersistOutcome.exn "disk full", now := 0 }

set_option maxRecDepth 8192 in
/-- C10 witness: on a successful save the store gains the record and the
call succeeds; on an exception the store is unchanged and `skipped_error`
is incremented. -/
theorem c10_mark_only_on_save_amended_witness :
    (process_article env10a st0 a10c).state.cache = mark_as_processed st0.cache 0 a10c
    ∧ (process_article env10a st0 a10c).ok = true
    ∧ (process_article env10b st0 a10c).state.cache = st0.cache
    ∧ (process_article env10b st0 a10c).state.stats.skipped_error
        = st0.stats.skipped_error + 1 :=
  ⟨((c10_mark_only_on_save_amended env10a st0 a10c rfl rfl (by decide)).2.2.2
      "2024-01-01-t.md" rfl).1,
   ((c10_mark_only_on_save_amended env10a st0 a10c rfl rfl (by decide)).2.2.2
      "2024-01-01-t.md" rfl).2,
   ((c10_mark_only_on_save_amended env10b st0 a10c rfl rfl (by decide)).2.2.1
      "disk full" rfl).1,
   ((c10_mark_only_on_save_amended env10b st0 a10c rfl rfl (by decide)).2.2.1
      "disk full" rfl).2.1⟩
